import Mathlib

/-!
Verification development for the AI_Webscraper repository.

We shallowly embed the core pipeline of `scrape.py`:
  * `scrape_website`  — the multi-strategy fetch orchestrator,
  * `parse_dom_content` — structural extraction of a DOM into a record,
  * `create_content_chunks` — text chunking.

External library behaviour that the source calls into is modelled
faithfully as executable Lean functions:
  * BeautifulSoup's tolerant `html.parser` tree building, `find_all`,
    `get_text`, `.string` and attribute access,
  * `urllib.parse.urlparse` / `urljoin` (including the `ValueError`
    raised on bracket-mismatched network locations),
  * `re.findall` for the three fixed contact-info patterns, via a small
    backtracking matcher,
  * LangChain's `RecursiveCharacterTextSplitter`.

Fetch strategies A (`scrape_with_requests`) and B (`scrape_with_selenium`)
perform network and browser I/O; following the spec's component model they
are passed to the orchestrator as oracles returning `Option String`
(`none` models the `None` returned on an exception, `some s` a returned
response body).  The orchestrator additionally records a trace of which
strategy was invoked, with which URL, in order.
-/

set_option maxRecDepth 4000

namespace WebScraper

/-! ## Python-style character and string helpers -/

/-- Python `\s` / `str.strip` whitespace (ASCII portion). -/
def pyIsSpace (c : Char) : Bool :=
  c = ' ' || c = '\t' || c = '\n' || c = '\r' || c = '\x0b' || c = '\x0c'

/-- A regex word character (`\w`, ASCII portion). -/
def wordChar (c : Char) : Bool := c.isAlphanum || c = '_'

/-- Python `s.startswith(p)`. -/
def startsWithS (s p : String) : Bool := p.data.isPrefixOf s.data

/-- Strip leading and trailing whitespace from a character list. -/
def stripL (l : List Char) : List Char :=
  ((l.dropWhile pyIsSpace).reverse.dropWhile pyIsSpace).reverse

/-- Python `str.strip()`. -/
def pyStrip (s : String) : String := ⟨stripL s.data⟩

/-- Python `str.lower()` on a character list. -/
def lowerL (l : List Char) : List Char := l.map Char.toLower

/-! ## HTML document model (BeautifulSoup with the `html.parser` builder)

A parsed page is a forest of nodes; an element node carries its
(lowercased) tag name, its attributes in document order, and children. -/

inductive Node where
  | elem (tag : String) (attrs : List (String × String)) (children : List Node)
  | textN (s : String)
deriving Repr

/-- Lexer tokens for the tolerant HTML tokenizer. -/
inductive Tok where
  | tagOpen (tag : String) (attrs : List (String × String)) (selfClose : Bool)
  | tagClose (tag : String)
  | txt (s : String)
deriving Repr, DecidableEq

def tagNameChar (c : Char) : Bool := c.isAlphanum || c = '-' || c = ':'

def attrNameChar (c : Char) : Bool :=
  !(pyIsSpace c) && c ≠ '=' && c ≠ '>' && c ≠ '/' && c ≠ '<'

/-- Parse the attribute section of a start tag.  Returns the attributes in
order (names lowercased), whether the tag was self-closing, and the input
remaining after the closing `>`. -/
def parseAttrs : Nat → List Char → List (String × String) →
    List (String × String) × Bool × List Char
  | 0, cs, acc => (acc.reverse, false, cs)
  | fuel+1, cs, acc =>
    let cs := cs.dropWhile pyIsSpace
    match cs with
    | [] => (acc.reverse, false, [])
    | '>' :: rest => (acc.reverse, false, rest)
    | '/' :: rest =>
      (match rest.dropWhile pyIsSpace with
       | '>' :: rest2 => (acc.reverse, true, rest2)
       | rest2 => parseAttrs fuel rest2 acc)
    | c :: rest =>
      let name := (c :: rest).takeWhile attrNameChar
      if name = [] then parseAttrs fuel rest acc
      else
        let cs1 := ((c :: rest).drop name.length).dropWhile pyIsSpace
        match cs1 with
        | '=' :: cs2 =>
          let cs2 := cs2.dropWhile pyIsSpace
          (match cs2 with
           | '"' :: cs3 =>
             let v := cs3.takeWhile (fun ch => ch ≠ '"')
             parseAttrs fuel (cs3.drop (v.length + 1)) ((⟨lowerL name⟩, ⟨v⟩) :: acc)
           | '\'' :: cs3 =>
             let v := cs3.takeWhile (fun ch => ch ≠ '\'')
             parseAttrs fuel (cs3.drop (v.length + 1)) ((⟨lowerL name⟩, ⟨v⟩) :: acc)
           | _ =>
             let v := cs2.takeWhile (fun ch => !(pyIsSpace ch) && ch ≠ '>')
             parseAttrs fuel (cs2.drop v.length) ((⟨lowerL name⟩, ⟨v⟩) :: acc))
        | _ => parseAttrs fuel cs1 ((⟨lowerL name⟩, "") :: acc)

/-- Skip an HTML comment body, returning the input after `-->`. -/
def skipComment : Nat → List Char → List Char
  | 0, cs => cs
  | _, [] => []
  | fuel+1, cs =>
    match cs with
    | '-' :: '-' :: '>' :: rest => rest
    | _ :: rest => skipComment fuel rest
    | [] => []

/-- In raw-text mode (inside `script`/`style`), collect characters up to the
matching close tag; returns the raw text and the input after the close tag. -/
def findRawEnd (tag : List Char) : Nat → List Char → List Char × List Char
  | 0, cs => (cs, [])
  | fuel+1, cs =>
    match cs with
    | [] => ([], [])
    | '<' :: '/' :: rest =>
      if tag.isPrefixOf (lowerL rest) then
        let after := (rest.drop tag.length).dropWhile (fun ch => ch ≠ '>')
        ([], after.drop 1)
      else
        let (t, r) := findRawEnd tag fuel ('/' :: rest)
        ('<' :: t, r)
    | c :: rest =>
      let (t, r) := findRawEnd tag fuel rest
      (c :: t, r)

/-- Tolerant HTML tokenizer, modelling Python's `html.parser` events as
consumed by BeautifulSoup (lowercased tag names, skipped comments and
declarations, raw-text handling of `script`/`style`, stray `<` as text). -/
def tokenize : Nat → List Char → List Tok
  | 0, _ => []
  | _, [] => []
  | fuel+1, cs =>
    match cs with
    | [] => []
    | '<' :: rest =>
      match rest with
      | [] => [Tok.txt "<"]
      | '/' :: rest2 =>
        let name := rest2.takeWhile tagNameChar
        if name = [] then
          let after := rest2.dropWhile (fun ch => ch ≠ '>')
          tokenize fuel (after.drop 1)
        else
          let after := (rest2.drop name.length).dropWhile (fun ch => ch ≠ '>')
          Tok.tagClose ⟨lowerL name⟩ :: tokenize fuel (after.drop 1)
      | '!' :: rest2 =>
        (match rest2 with
         | '-' :: '-' :: rest3 => tokenize fuel (skipComment (rest3.length + 1) rest3)
         | _ =>
           let after := rest2.dropWhile (fun ch => ch ≠ '>')
           tokenize fuel (after.drop 1))
      | c :: _ =>
        if c.isAlpha then
          let name := rest.takeWhile tagNameChar
          let lname := lowerL name
          let (attrs, selfC, after) := parseAttrs (rest.length + 1) (rest.drop name.length) []
          if !selfC && (lname = "script".data || lname = "style".data) then
            let (raw, after2) := findRawEnd lname (after.length + 1) after
            Tok.tagOpen ⟨lname⟩ attrs false ::
              ((if raw = [] then [] else [Tok.txt ⟨raw⟩]) ++
                (Tok.tagClose ⟨lname⟩ :: tokenize fuel after2))
          else
            Tok.tagOpen ⟨lname⟩ attrs selfC :: tokenize fuel after
        else
          let t := rest.takeWhile (fun ch => ch ≠ '<')
          Tok.txt ⟨'<' :: t⟩ :: tokenize fuel (rest.drop t.length)
    | c :: rest =>
      let t := (c :: rest).takeWhile (fun ch => ch ≠ '<')
      Tok.txt ⟨t⟩ :: tokenize fuel ((c :: rest).drop t.length)

def parseTokens (s : String) : List Tok := tokenize (s.data.length + 1) s.data

/-- HTML void elements: BeautifulSoup closes these immediately. -/
def voidTags : List String :=
  ["area", "base", "br", "col", "embed", "hr", "img", "input", "link",
   "meta", "param", "source", "track", "wbr"]

/-- Build a node forest from the token stream.  `openTags` tracks open
ancestors: a close tag matching an ancestor unwinds to it, a stray close tag
is ignored, unclosed elements are closed implicitly at the end. -/
def buildNodes : Nat → List Tok → List String → List Node × List Tok
  | 0, toks, _ => ([], toks)
  | _, [], _ => ([], [])
  | fuel+1, tok :: toks, openTags =>
    match tok with
    | .txt s =>
      let (ns, rest) := buildNodes fuel toks openTags
      (.textN s :: ns, rest)
    | .tagClose t =>
      if openTags.contains t then ([], Tok.tagClose t :: toks)
      else buildNodes fuel toks openTags
    | .tagOpen t a sc =>
      if sc || voidTags.contains t then
        let (ns, rest) := buildNodes fuel toks openTags
        (.elem t a [] :: ns, rest)
      else
        let (kids, rest1) := buildNodes fuel toks (t :: openTags)
        let rest2 :=
          match rest1 with
          | .tagClose t2 :: more => if t2 = t then more else rest1
          | _ => rest1
        let (ns, rest3) := buildNodes fuel rest2 openTags
        (.elem t a kids :: ns, rest3)

/-- Parse an HTML string into a node forest (models
`BeautifulSoup(html, "html.parser")`). -/
def parseHTML (s : String) : List Node :=
  let toks := parseTokens s
  (buildNodes ((toks.length + 2) * (toks.length + 2)) toks []).1

/-! ## Soup operations -/

mutual

/-- All element descendants of a node (itself included if it matches),
in document order — the search underlying `find_all`. -/
def findAllN (p : Node → Bool) : Node → List Node
  | .textN _ => []
  | .elem t a cs =>
    (if p (.elem t a cs) then [Node.elem t a cs] else []) ++ findAllL p cs

/-- `find_all` over a forest, document order. -/
def findAllL (p : Node → Bool) : List Node → List Node
  | [] => []
  | n :: ns => findAllN p n ++ findAllL p ns

end

mutual

/-- `get_text()`: concatenation of all text descendants. -/
def getTextN : Node → String
  | .textN s => s
  | .elem _ _ cs => getTextL cs

def getTextL : List Node → String
  | [] => ""
  | n :: ns => getTextN n ++ getTextL ns

end

/-- BeautifulSoup `.string`: defined when the node is a text node or an
element with a single child whose `.string` is defined; `none` otherwise
(in particular for an element with zero or several children). -/
def nodeString : Node → Option String
  | .textN s => some s
  | .elem _ _ [c] => nodeString c
  | .elem _ _ _ => none

/-- `tag.get(key, dflt)` (first occurrence of the attribute wins). -/
def getAttrD (n : Node) (key dflt : String) : String :=
  match n with
  | .textN _ => dflt
  | .elem _ attrs _ =>
    match attrs.find? (fun kv => kv.1 = key) with
    | some kv => kv.2
    | none => dflt

/-- `tag.has_attr(key)`. -/
def hasAttr (n : Node) (key : String) : Bool :=
  match n with
  | .textN _ => false
  | .elem _ attrs _ => attrs.any (fun kv => kv.1 = key)

def tagOf : Node → String
  | .elem t _ _ => t
  | .textN _ => ""

def isTag (t : String) (n : Node) : Bool := tagOf n = t

/-- `find_all` restricted to the strict descendants of one node. -/
def findAllIn (p : Node → Bool) : Node → List Node
  | .textN _ => []
  | .elem _ _ cs => findAllL p cs

/-- `soup.find(...)`: first match in document order. -/
def findFirstL (p : Node → Bool) (nodes : List Node) : Option Node :=
  (findAllL p nodes).head?

/-! ## URL model (`urllib.parse`)

`urlparse`/`urlsplit` split a URL into scheme, network location, path,
query and fragment; `urljoin` resolves a (possibly relative) URL against a
base.  `urlsplit` raises `ValueError` on a network location containing
`[` without `]` or vice versa; the checked variants below return `none`
in that case, modelling the exception. -/

structure URLParts where
  scheme : String
  netloc : String
  path : String
  query : String
  frag : String
deriving Repr, DecidableEq

def schemeChar (c : Char) : Bool :=
  c.isAlpha || c.isDigit || c = '+' || c = '-' || c = '.'

/-- Split at the first occurrence of `sep`; `none` when absent. -/
def splitOnce (sep : Char) (l : List Char) : List Char × Option (List Char) :=
  let pre := l.takeWhile (fun c => c ≠ sep)
  if pre.length = l.length then (l, none) else (pre, some (l.drop (pre.length + 1)))

def netlocEndChar (c : Char) : Bool := c = '/' || c = '?' || c = '#'

def urlparseL (l : List Char) : URLParts :=
  let pre := l.takeWhile (fun c => c ≠ ':')
  let sr :=
    if decide (pre.length < l.length) &&
        (match pre with | c :: _ => c.isAlpha | [] => false) &&
        pre.all schemeChar then
      (lowerL pre, l.drop (pre.length + 1))
    else ([], l)
  let nr :=
    match sr.2 with
    | '/' :: '/' :: r =>
      let nl := r.takeWhile (fun c => !netlocEndChar c)
      (nl, r.drop nl.length)
    | rest => ([], rest)
  let fsplit := splitOnce '#' nr.2
  let qsplit := splitOnce '?' fsplit.1
  ⟨⟨sr.1⟩, ⟨nr.1⟩, ⟨qsplit.1⟩,
    ⟨match qsplit.2 with | some x => x | none => []⟩,
    ⟨match fsplit.2 with | some x => x | none => []⟩⟩

/-- `urllib.parse.urlparse` restricted to the fields the scraper uses
(scheme, netloc, path, query, fragment). -/
def urlparse (s : String) : URLParts := urlparseL s.data

/-- The bracket condition on which `urlsplit` raises `ValueError`. -/
def badNetloc (netloc : String) : Bool :=
  (netloc.data.contains '[') != (netloc.data.contains ']')

/-- `urlsplit` with the `ValueError` modelled as `none`. -/
def urlparseX (s : String) : Option URLParts :=
  let p := urlparse s
  if badNetloc p.netloc then none else some p

/-- `urlunsplit`-style recombination. -/
def unparseURL (p : URLParts) : String :=
  let u1 :=
    if p.netloc ≠ "" ∨ startsWithS p.path "//" then
      "//" ++ p.netloc ++
        (if p.path ≠ "" ∧ ¬ startsWithS p.path "/" then "/" ++ p.path else p.path)
    else p.path
  let u2 := if p.scheme ≠ "" then p.scheme ++ ":" ++ u1 else u1
  let u3 := if p.query ≠ "" then u2 ++ "?" ++ p.query else u2
  if p.frag ≠ "" then u3 ++ "#" ++ p.frag else u3

/-- `uses_relative` scheme table of `urllib.parse`. -/
def usesRelative : List String :=
  ["", "ftp", "http", "gopher", "nntp", "imap", "wais", "file", "https",
   "shttp", "mms", "prospero", "rtsp", "rtspu", "sftp", "svn", "svn+ssh",
   "ws", "wss"]

/-- `uses_netloc` scheme table of `urllib.parse`. -/
def usesNetloc : List String :=
  ["", "ftp", "http", "gopher", "nntp", "telnet", "imap", "wais", "file",
   "mms", "https", "shttp", "snews", "prospero", "rtsp", "rtspu", "rsync",
   "svn", "svn+ssh", "sftp", "nfs", "git", "git+ssh", "ws", "wss"]

/-- Python `s.split(sep)` for a single-character separator. -/
def splitOnChar (sep : Char) (s : String) : List String :=
  (s.data.foldr
    (fun c acc =>
      match acc with
      | cur :: rest => if c = sep then [] :: cur :: rest else (c :: cur) :: rest
      | [] => [[c]])
    [[]]).map (fun l => (⟨l⟩ : String))

/-- Resolution of `.` and `..` segments, as in `urljoin`'s final loop. -/
def resolveSegs (segs : List String) : String :=
  let res := segs.foldl
    (fun acc seg =>
      if seg = ".." then acc.dropLast
      else if seg = "." then acc
      else acc ++ [seg])
    ([] : List String)
  let res :=
    match segs.getLast? with
    | some s => if s = "." ∨ s = ".." then res ++ [""] else res
    | none => res
  let j := String.intercalate "/" res
  if j = "" then "/" else j

/-- `segments[1:-1] = filter(None, segments[1:-1])`. -/
def filterMiddle : List String → List String
  | [] => []
  | [x] => [x]
  | x :: rest =>
    match rest.getLast? with
    | none => [x]
    | some lastv => x :: ((rest.dropLast.filter (fun s => s ≠ "")) ++ [lastv])

/-- The relative-resolution tail of `urljoin` (path/query merging), for a
given final scheme and network location. -/
def urljoinRel (uscheme netloc : String) (b u : URLParts) : String :=
  if u.path = "" then
    unparseURL ⟨uscheme, netloc, b.path,
      (if u.query = "" then b.query else u.query), u.frag⟩
  else if startsWithS u.path "/" then
    unparseURL ⟨uscheme, netloc, resolveSegs (splitOnChar '/' u.path), u.query, u.frag⟩
  else
    let baseParts :=
      let bp := splitOnChar '/' b.path
      match bp.getLast? with
      | some lastv => if lastv ≠ "" then bp.dropLast else bp
      | none => bp
    unparseURL ⟨uscheme, netloc,
      resolveSegs (filterMiddle (baseParts ++ splitOnChar '/' u.path)), u.query, u.frag⟩

/-- `urllib.parse.urljoin`, with the `urlsplit` `ValueError` modelled as
`none`. -/
def urljoinE (base url : String) : Option String :=
  if base = "" then some url
  else if url = "" then some base
  else
    match urlparseX base, urlparseX url with
    | some b, some u =>
      let uscheme := if u.scheme = "" then b.scheme else u.scheme
      if uscheme ≠ b.scheme ∨ ¬ usesRelative.contains uscheme then some url
      else if usesNetloc.contains uscheme then
        if u.netloc ≠ "" then
          some (unparseURL ⟨uscheme, u.netloc, u.path, u.query, u.frag⟩)
        else some (urljoinRel uscheme b.netloc b u)
      else some (urljoinRel uscheme u.netloc b u)
    | _, _ => none

/-! ## Regex model for the contact-info patterns

The extractor uses `re.findall` with three phone patterns and one email
pattern built from word boundaries, literal characters and greedy counted
character classes.  We model exactly that fragment: a pattern is a sequence
of items matched left to right, with greedy backtracking on classes
(longest count first), as the Python engine does. -/

inductive RE where
  | wb : RE
  | chr (c : Char) : RE
  | cls (p : Char → Bool) (lo : Nat) (hi : Option Nat) : RE

/-- `\b`: a word character on exactly one side of the position. -/
def atBoundary (prev : Option Char) (cs : List Char) : Bool :=
  let l := match prev with | none => false | some c => wordChar c
  let r := match cs with | [] => false | c :: _ => wordChar c
  l != r

/-- Match a pattern at the head of `cs` (`prev` is the character before
the current position); returns the remaining input on success.  Greedy
backtracking on classes is realized by trying the repetition counts from
the longest downwards.  The fuel only bounds the pattern length, which
strictly decreases on every step. -/
def matchSeqF : Nat → List RE → Option Char → List Char → Option (List Char)
  | 0, _, _, _ => none
  | _+1, [], _, cs => some cs
  | fuel+1, .wb :: rest, prev, cs =>
    if atBoundary prev cs then matchSeqF fuel rest prev cs else none
  | fuel+1, .chr c :: rest, _, cs =>
    (match cs with
     | c2 :: cs2 => if c2 = c then matchSeqF fuel rest (some c2) cs2 else none
     | [] => none)
  | fuel+1, .cls p lo hi :: rest, prev, cs =>
    let k0 := (cs.takeWhile p).length
    let k := match hi with | some h2 => min k0 h2 | none => k0
    (List.range (k + 1)).findSome? (fun i =>
      let n := k - i
      if n < lo then none
      else
        let prev2 := match (cs.take n).getLast? with | some c => some c | none => prev
        matchSeqF fuel rest prev2 (cs.drop n))

/-- Match a pattern at one position. -/
def matchSeq (pat : List RE) (prev : Option Char) (cs : List Char) :
    Option (List Char) :=
  matchSeqF (pat.length + 1) pat prev cs

/-- `re.findall`: scan left to right, taking the leftmost match at each
position and continuing after it (non-overlapping). -/
def findallGo (pat : List RE) : Nat → Option Char → List Char → List String
  | 0, _, _ => []
  | _, _, [] => []
  | f+1, prev, c :: rest =>
    match matchSeq pat prev (c :: rest) with
    | some rem =>
      let cs := c :: rest
      let k := cs.length - rem.length
      if k = 0 then findallGo pat f (some c) rest
      else (⟨cs.take k⟩ : String) :: findallGo pat f ((cs.take k).getLast?) rem
    | none => findallGo pat f (some c) rest

def findallPat (pat : List RE) (s : String) : List String :=
  findallGo pat (s.data.length + 1) none s.data

def emailLocalChar (c : Char) : Bool :=
  c.isAlphanum || c = '.' || c = '_' || c = '%' || c = '+' || c = '-'

def emailDomChar (c : Char) : Bool := c.isAlphanum || c = '.' || c = '-'

/-- `[A-Z|a-z]` — the source's character class literally includes `|`. -/
def emailTldChar (c : Char) : Bool := c.isAlpha || c = '|'

def digitC (c : Char) : Bool := c.isDigit

def dashDot (c : Char) : Bool := c = '-' || c = '.'

def dashDotSpace (c : Char) : Bool := c = '-' || c = '.' || pyIsSpace c

/-- `\b[A-Za-z0-9._%+-]+@[A-Za-z0-9.-]+\.[A-Z|a-z]{2,}\b` -/
def emailPat : List RE :=
  [.wb, .cls emailLocalChar 1 none, .chr '@', .cls emailDomChar 1 none,
   .chr '.', .cls emailTldChar 2 none, .wb]

/-- `\b\d{3}[-.]?\d{3}[-.]?\d{4}\b` -/
def phonePat1 : List RE :=
  [.wb, .cls digitC 3 (some 3), .cls dashDot 0 (some 1), .cls digitC 3 (some 3),
   .cls dashDot 0 (some 1), .cls digitC 4 (some 4), .wb]

/-- `\b\(\d{3}\)\s?\d{3}[-.]?\d{4}\b` -/
def phonePat2 : List RE :=
  [.wb, .chr '(', .cls digitC 3 (some 3), .chr ')', .cls pyIsSpace 0 (some 1),
   .cls digitC 3 (some 3), .cls dashDot 0 (some 1), .cls digitC 4 (some 4), .wb]

/-- `\b\+\d{1,3}[-.\s]?\d{1,14}\b` -/
def phonePat3 : List RE :=
  [.wb, .chr '+', .cls digitC 1 (some 3), .cls dashDotSpace 0 (some 1),
   .cls digitC 1 (some 14), .wb]

/-- `list(set(xs))`: the set collapses duplicates in an unspecified order;
we model it with `List.dedup`. -/
def pySetList (xs : List String) : List String := xs.dedup

/-! ## The structured document (`dom_data` dictionary of `parse_dom_content`) -/

structure LinkInfo where
  text : String
  url : String
  is_external : Bool
deriving Repr, DecidableEq

structure ImageInfo where
  src : String
  alt : String
  title : String
deriving Repr, DecidableEq

structure ListInfo where
  kind : String
  items : List String
deriving Repr, DecidableEq

structure FormInput where
  type : String
  name : String
  placeholder : String
  required : Bool
deriving Repr, DecidableEq

structure FormInfo where
  action : String
  method : String
  inputs : List FormInput
deriving Repr, DecidableEq

structure ContactInfo where
  emails : List String
  phones : List String
  addresses : List String
deriving Repr, DecidableEq

structure DomData where
  title : String
  meta_description : String
  h1 : List String
  h2 : List String
  h3 : List String
  links : List LinkInfo
  images : List ImageInfo
  paragraphs : List String
  lists : List ListInfo
  tables : List (List (List String))
  forms : List FormInfo
  contact_info : ContactInfo
deriving Repr, DecidableEq

/-! ## Structural extraction (`parse_dom_content`)

Each extractor below is the direct translation of one loop of
`parse_dom_content`.  Link and image extraction call `urljoin`
(and link extraction also `urlparse`), which can raise; an extractor that
can raise returns `Except Unit (Option α)`: `.error ()` models the raised
`ValueError` (caught by the function's top-level `except`, which returns
`None`), `.ok none` a skipped element, `.ok (some x)` an appended entry. -/

/-- `soup.title.string.strip() if soup.title else "No title found"`.
`none` models the `AttributeError` raised when a `title` element exists but
its `.string` is `None` (no single text child). -/
def extractTitle (nodes : List Node) : Option String :=
  match findFirstL (isTag "title") nodes with
  | none => some "No title found"
  | some t => (nodeString t).map pyStrip

/-- The `<meta name="description">` lookup. -/
def extractMeta (nodes : List Node) : String :=
  match findFirstL (fun n => isTag "meta" n && getAttrD n "name" "" = "description") nodes with
  | some m => getAttrD m "content" ""
  | none => ""

/-- Heading texts for one level (`h1`/`h2`/`h3`), document order. -/
def headTexts (t : String) (nodes : List Node) : List String :=
  (findAllL (isTag t) nodes).map (fun h => pyStrip (getTextN h))

/-- One iteration of the link loop. -/
def mkLink (base_url : String) (a : Node) : Except Unit (Option LinkInfo) :=
  match urljoinE base_url (getAttrD a "href" "") with
  | none => .error ()
  | some link_url =>
    let link_text := pyStrip (getTextN a)
    if link_text = "" then .ok none
    else
      match urlparseX link_url, urlparseX base_url with
      | some up, some bp => .ok (some ⟨link_text, link_url, up.netloc != bp.netloc⟩)
      | _, _ => .error ()

/-- One iteration of the image loop. -/
def mkImage (base_url : String) (img : Node) : Except Unit (Option ImageInfo) :=
  let img_src := getAttrD img "src" ""
  if img_src = "" then .ok none
  else
    match urljoinE base_url img_src with
    | none => .error ()
    | some u => .ok (some ⟨u, getAttrD img "alt" "", getAttrD img "title" ""⟩)

/-- Run a per-element extractor over a node list, collecting appended
entries in order; an `.error` (a raised exception) aborts the whole run. -/
def collectSkip {α : Type} (f : Node → Except Unit (Option α)) :
    List Node → Option (List α)
  | [] => some []
  | n :: ns =>
    match f n with
    | .error _ => none
    | .ok o =>
      (collectSkip f ns).map (fun rest =>
        match o with
        | some x => x :: rest
        | none => rest)

def extractLinks (base_url : String) (nodes : List Node) : Option (List LinkInfo) :=
  collectSkip (mkLink base_url) (findAllL (fun n => isTag "a" n && hasAttr n "href") nodes)

def extractImages (base_url : String) (nodes : List Node) : Option (List ImageInfo) :=
  collectSkip (mkImage base_url) (findAllL (isTag "img") nodes)

/-- One iteration of the list loop (`ul`/`ol`). -/
def mkList (ul : Node) : Option ListInfo :=
  let list_items := (findAllIn (isTag "li") ul).map (fun li => pyStrip (getTextN li))
  if list_items = [] then none else some ⟨tagOf ul, list_items⟩

def extractLists (nodes : List Node) : List ListInfo :=
  (findAllL (fun n => isTag "ul" n || isTag "ol" n) nodes).filterMap mkList

/-- One row of a table: the cell texts; skipped when no cells. -/
def mkRow (row : Node) : Option (List String) :=
  let row_data := (findAllIn (fun c => isTag "td" c || isTag "th" c) row).map
    (fun c => pyStrip (getTextN c))
  if row_data = [] then none else some row_data

/-- One table: its non-empty rows; skipped when no rows survive. -/
def mkTable (tb : Node) : Option (List (List String)) :=
  let table_data := (findAllIn (isTag "tr") tb).filterMap mkRow
  if table_data = [] then none else some table_data

def extractTables (nodes : List Node) : List (List (List String)) :=
  (findAllL (isTag "table") nodes).filterMap mkTable

def mkInput (f : Node) : FormInput :=
  ⟨getAttrD f "type" (tagOf f), getAttrD f "name" "",
   getAttrD f "placeholder" "", hasAttr f "required"⟩

/-- One form: note the `action` attribute is stored as-is, not resolved. -/
def mkForm (f : Node) : FormInfo :=
  ⟨getAttrD f "action" "", getAttrD f "method" "get",
   (findAllIn (fun n => isTag "input" n || isTag "textarea" n || isTag "select" n) f).map
     mkInput⟩

def extractForms (nodes : List Node) : List FormInfo :=
  (findAllL (isTag "form") nodes).map mkForm

/-- The contact-info pass over the page's visible text. -/
def extractContacts (nodes : List Node) : ContactInfo :=
  let text_content := getTextL nodes
  let emails := pySetList (findallPat emailPat text_content)
  let phones := pySetList
    (findallPat phonePat1 text_content ++ findallPat phonePat2 text_content ++
      findallPat phonePat3 text_content)
  ⟨emails, phones, []⟩

/-- Assemble the structured document from its pieces. -/
def buildDom (nodes : List Node) (ttl : String)
    (links : List LinkInfo) (images : List ImageInfo) : DomData :=
  { title := ttl
    meta_description := extractMeta nodes
    h1 := headTexts "h1" nodes
    h2 := headTexts "h2" nodes
    h3 := headTexts "h3" nodes
    links := links
    images := images
    paragraphs := ((findAllL (isTag "p") nodes).map
      (fun p => pyStrip (getTextN p))).filter (fun s => s ≠ "")
    lists := extractLists nodes
    tables := extractTables nodes
    forms := extractForms nodes
    contact_info := extractContacts nodes }

/-- `parse_dom_content(html_content, base_url)`.  Returns `none` when the
input is empty or already a failure sentinel, or when an exception inside
the `try` block is caught (title `.string` access, URL resolution). -/
def parse_dom_content (html_content base_url : String) : Option DomData :=
  if html_content = "" ∨ startsWithS html_content "❌" then none
  else
    let nodes := parseHTML html_content
    match extractTitle nodes with
    | none => none
    | some ttl =>
      match extractLinks base_url nodes, extractImages base_url nodes with
      | some links, some images => some (buildDom nodes ttl links images)
      | _, _ => none

/-! ## Chunking (`create_content_chunks`)

The content is flattened to text (structured bundle or raw markup),
whitespace-normalized, and split by a model of LangChain's
`RecursiveCharacterTextSplitter` with the separator list
`["\n\n", "\n", ". ", "! ", "? ", " ", ""]` and `keep_separator=True`. -/

/-- `re.sub(r"\s+", " ", text).strip()`. -/
def normalizeWS (s : String) : String :=
  ⟨stripL (s.data.foldr
    (fun c acc =>
      if pyIsSpace c then
        match acc with
        | ' ' :: _ => acc
        | _ => ' ' :: acc
      else c :: acc)
    [])⟩

mutual

/-- Drop `script`/`style` subtrees (`tag.decompose()`): a dropped element
vanishes, a kept one is cleaned recursively. -/
def stripTagsN (bad : List String) : Node → List Node
  | .textN s => [.textN s]
  | .elem t a cs =>
    if bad.contains t then [] else [.elem t a (stripTagsL bad cs)]

def stripTagsL (bad : List String) : List Node → List Node
  | [] => []
  | n :: ns => stripTagsN bad n ++ stripTagsL bad ns

end

/-- The flattened text built from a structured bundle: title line,
description line, level-tagged heading lines, paragraphs, list items. -/
def structuredText (dom : DomData) : String :=
  let text_parts :=
    (if dom.title ≠ "" then ["Title: " ++ dom.title] else []) ++
    (if dom.meta_description ≠ "" then ["Description: " ++ dom.meta_description] else []) ++
    dom.h1.map (fun h => "H1: " ++ h) ++
    dom.h2.map (fun h => "H2: " ++ h) ++
    dom.h3.map (fun h => "H3: " ++ h) ++
    dom.paragraphs ++
    (dom.lists.map ListInfo.items).flatten
  String.intercalate "\n" text_parts

/-- The splitter's separator list. -/
def defaultSeps : List String := ["\n\n", "\n", ". ", "! ", "? ", " ", ""]

/-- Select the first separator occurring in the text (`""` always matches);
returns it with the remaining separator list for recursion. -/
def occursIn (sub : List Char) (l : List Char) : Bool :=
  (List.range (l.length + 1)).any (fun i => sub.isPrefixOf (l.drop i))

def pickSepGo (fallback : String) : List String → String → String × List String
  | [], _ => (fallback, [])
  | s :: rest, text =>
    if s = "" then ("", [])
    else if occursIn s.data text.data then (s, rest)
    else pickSepGo fallback rest text

def pickSep (seps : List String) (text : String) : String × List String :=
  pickSepGo (match seps.getLast? with | some s => s | none => "") seps text

/-- Split on a literal separator, keeping each separator attached to the
following piece (empty pieces filtered), as `_split_text_with_regex` does
with `keep_separator=True`. -/
def splitOnSubL (sep : List Char) : Nat → List Char → List (List Char)
  | 0, l => [l]
  | fuel+1, l =>
    match l with
    | [] => [[]]
    | c :: rest =>
      if sep.isPrefixOf l then
        [] :: splitOnSubL sep fuel (l.drop sep.length)
      else
        match splitOnSubL sep fuel rest with
        | [] => [[c]]
        | p :: ps => (c :: p) :: ps

def splitWithSep (sep text : String) : List String :=
  if sep = "" then text.data.map (fun c => (⟨[c]⟩ : String))
  else
    match (splitOnSubL sep.data (text.data.length + 1) text.data).map
        (fun l => (⟨l⟩ : String)) with
    | [] => []
    | p :: ps => (p :: ps.map (fun s => sep ++ s)).filter (fun s => s ≠ "")

/-- `_join_docs` with separator `""`: concatenate, strip, `none` if empty. -/
def joinDocs (docs : List String) : Option String :=
  let text := pyStrip (String.intercalate "" docs)
  if text = "" then none else some text

/-- The inner while-loop of `_merge_splits`: pop from the front while the
kept total exceeds the overlap (or would still overflow with `d` added). -/
def popWhile (chunk_overlap chunk_size dLen : Nat) :
    List String → Nat → List String × Nat
  | [], total => ([], total)
  | c :: rest, total =>
    if total > chunk_overlap ∨ (total + dLen > chunk_size ∧ total > 0) then
      popWhile chunk_overlap chunk_size dLen rest (total - c.data.length)
    else (c :: rest, total)

/-- `_merge_splits` main loop (separator length 0 under
`keep_separator=True`). -/
def mergeGo (chunk_size chunk_overlap : Nat) :
    List String → List String → Nat → List String → List String
  | [], current_doc, _, docs =>
    (match joinDocs current_doc with
     | some d => docs ++ [d]
     | none => docs)
  | d :: ds, current_doc, total, docs =>
    let dLen := d.data.length
    let next :=
      if total + dLen > chunk_size then
        match current_doc with
        | [] => (current_doc, total, docs)
        | _ =>
          let docs2 :=
            match joinDocs current_doc with
            | some dd => docs ++ [dd]
            | none => docs
          let pt := popWhile chunk_overlap chunk_size dLen current_doc total
          (pt.1, pt.2, docs2)
      else (current_doc, total, docs)
    mergeGo chunk_size chunk_overlap ds (next.1 ++ [d]) (next.2.1 + dLen) next.2.2

def mergeSplits (chunk_size chunk_overlap : Nat) (splits : List String) : List String :=
  mergeGo chunk_size chunk_overlap splits [] 0 []

mutual

/-- `RecursiveCharacterTextSplitter._split_text`. -/
def splitTextRec (chunk_size chunk_overlap : Nat) :
    Nat → String → List String → List String
  | 0, text, _ => [text]
  | fuel+1, text, seps =>
    let pick := pickSep seps text
    splitLoop chunk_size chunk_overlap fuel pick.2 (splitWithSep pick.1 text) [] []

/-- The loop over the pieces: short pieces accumulate and merge, long
pieces recurse with the remaining separators. -/
def splitLoop (chunk_size chunk_overlap : Nat) :
    Nat → List String → List String → List String → List String → List String
  | 0, _, ss, good, final => final ++ (if good = [] then [] else mergeSplits chunk_size chunk_overlap good) ++ ss
  | _+1, _, [], good, final =>
    final ++ (if good = [] then [] else mergeSplits chunk_size chunk_overlap good)
  | fuel+1, newSeps, s :: ss, good, final =>
    if s.data.length < chunk_size then
      splitLoop chunk_size chunk_overlap fuel newSeps ss (good ++ [s]) final
    else
      let final1 := final ++ (if good = [] then [] else mergeSplits chunk_size chunk_overlap good)
      let final2 :=
        if newSeps = [] then final1 ++ [s]
        else final1 ++ splitTextRec chunk_size chunk_overlap fuel s newSeps
      splitLoop chunk_size chunk_overlap fuel newSeps ss [] final2

end

/-- `split_text`, with ample fuel for the bounded recursion. -/
def splitText (chunk_size chunk_overlap : Nat) (text : String) : List String :=
  splitTextRec chunk_size chunk_overlap
    ((text.data.length + 2) * (defaultSeps.length + 2)) text defaultSeps

/-- The argument of `create_content_chunks`: either the bundle produced by
`scrape_website(parse_dom=True)` (a dict carrying `dom_data`) or a raw
markup string. -/
inductive ChunkInput where
  | bundleIn (html : String) (dom : DomData) (url : String)
  | strIn (s : String)

/-- `create_content_chunks(content, chunk_size, chunk_overlap)`. -/
def create_content_chunks (content : ChunkInput)
    (chunk_size chunk_overlap : Nat) : List String :=
  let content_text :=
    match content with
    | .bundleIn _ dom _ => structuredText dom
    | .strIn s => getTextL (stripTagsL ["script", "style"] (parseHTML s))
  splitText chunk_size chunk_overlap (normalizeWS content_text)

/-! ## The fetch orchestrator (`scrape_website`)

The two fetch strategies are oracles; the orchestrator returns the Python
function's value (a string or the result bundle) together with the ordered
trace of strategy invocations. -/

inductive FetchEvent where
  | callA (url : String)
  | callB (url : String)
deriving Repr, DecidableEq

inductive ScrapeResult where
  | strRes (s : String)
  | bundle (html : String) (dom : Option DomData) (url : String)
deriving Repr, DecidableEq

/-- The sentinel returned when both strategies fail. -/
def allFailedMsg : String :=
  "❌ All scraping methods failed. The website might be blocking requests or requires special handling."

/-- The sentinel returned for an empty URL. -/
def noUrlMsg : String := "❌ Please provide a valid URL"

/-- Python truthiness of the `html` variable (`None` and `""` are falsy). -/
def truthy : Option String → Bool
  | none => false
  | some s => s != ""

/-- The scheme-prefixing normalization at the top of `scrape_website`. -/
def normalizeUrl (website : String) : String :=
  if startsWithS website "http://" || startsWithS website "https://" then website
  else "https://" ++ website

/-- `scrape_website(website, parse_dom)` with the strategies as oracles. -/
def scrape_website (fetchA fetchB : String → Option String)
    (website : String) (parse_dom : Bool) : ScrapeResult × List FetchEvent :=
  if website = "" then (.strRes noUrlMsg, [])
  else
    let website := normalizeUrl website
    let r1 := fetchA website
    let hr :=
      if truthy r1 then (r1, [FetchEvent.callA website])
      else (fetchB website, [FetchEvent.callA website, FetchEvent.callB website])
    match hr.1 with
    | some h =>
      if h != "" then
        if parse_dom then
          (.bundle h (parse_dom_content h website) website, hr.2)
        else (.strRes h, hr.2)
      else (.strRes allFailedMsg, hr.2)
    | none => (.strRes allFailedMsg, hr.2)


/-! ## Helper lemmas -/

/-- Destructuring a successful `parse_dom_content` run. -/
lemma parse_dom_content_some {html base : String} {d : DomData}
    (h : parse_dom_content html base = some d) :
    ∃ ttl links images,
      extractTitle (parseHTML html) = some ttl ∧
      extractLinks base (parseHTML html) = some links ∧
      extractImages base (parseHTML html) = some images ∧
      d = buildDom (parseHTML html) ttl links images := by
  simp only [parse_dom_content] at h
  split at h
  · exact absurd h (by simp)
  · split at h
    · exact absurd h (by simp)
    · rename_i ttl httl
      split at h
      · rename_i links images hlinks himages
        exact ⟨ttl, links, images, httl, hlinks, himages, (Option.some_inj.mp h).symm⟩
      · exact absurd h (by simp)

/-- Membership in a `collectSkip` run comes from an `.ok (some _)` step. -/
lemma mem_collectSkip {α : Type} {f : Node → Except Unit (Option α)}
    {ns : List Node} {res : List α} (h : collectSkip f ns = some res) :
    ∀ x ∈ res, ∃ n ∈ ns, f n = .ok (some x) := by
  induction ns generalizing res with
  | nil =>
    simp only [collectSkip, Option.some.injEq] at h
    subst h
    intro x hx
    exact absurd hx (List.not_mem_nil x)
  | cons n ns ih =>
    simp only [collectSkip] at h
    split at h
    · exact absurd h (by simp)
    · rename_i o ho
      rcases hrec : collectSkip f ns with _ | rest
      · rw [hrec] at h
        exact absurd h (by simp)
      · rw [hrec] at h
        simp only [Option.map_some'] at h
        rw [Option.some_inj] at h
        subst h
        intro x hx
        cases o with
        | some y =>
          rcases List.mem_cons.mp hx with hxy | hxr
          · exact ⟨n, by simp, by rw [ho, hxy]⟩
          · obtain ⟨m, hm, hfm⟩ := ih hrec x hxr
            exact ⟨m, by simp [hm], hfm⟩
        | none =>
          obtain ⟨m, hm, hfm⟩ := ih hrec x hx
          exact ⟨m, by simp [hm], hfm⟩

/-- `urlparseX` only ever returns the parse of its argument. -/
lemma urlparseX_eq {s : String} {p : URLParts} (h : urlparseX s = some p) :
    p = urlparse s := by
  simp only [urlparseX] at h
  split at h
  · exact absurd h (by simp)
  · exact (Option.some_inj.mp h).symm

/-- What a successfully appended link looks like. -/
lemma mkLink_ok {base : String} {a : Node} {l : LinkInfo}
    (h : mkLink base a = .ok (some l)) :
    urljoinE base (getAttrD a "href" "") = some l.url ∧
    l.is_external = ((urlparse l.url).netloc != (urlparse base).netloc) := by
  simp only [mkLink] at h
  split at h
  · exact absurd h (by simp)
  · rename_i link_url hjoin
    split at h
    · exact absurd h (by simp)
    · split at h
      · rename_i up bp hup hbp
        simp only [Except.ok.injEq, Option.some.injEq] at h
        subst h
        exact ⟨hjoin, by rw [urlparseX_eq hup, urlparseX_eq hbp]⟩
      · exact absurd h (by simp)

/-- What a successfully appended image looks like. -/
lemma mkImage_ok {base : String} {img : Node} {im : ImageInfo}
    (h : mkImage base img = .ok (some im)) :
    ∃ src, src ≠ "" ∧ urljoinE base src = some im.src := by
  simp only [mkImage] at h
  split at h
  · exact absurd h (by simp)
  · rename_i hsrc
    split at h
    · exact absurd h (by simp)
    · rename_i u hju
      simp only [Except.ok.injEq, Option.some.injEq] at h
      subst h
      exact ⟨getAttrD img "src" "", hsrc, hju⟩

/-- A URL is in absolute form when it carries a scheme. -/
def isAbsoluteUrl (u : String) : Bool := (urlparse u).scheme != ""

lemma urlparseL_http (r : List Char) :
    (urlparseL ("http:".data ++ r)).scheme = "http" := by
  have e : "http:".data = ['h', 't', 't', 'p', ':'] := rfl
  rw [e]
  simp [urlparseL, List.takeWhile, schemeChar, lowerL]

lemma urlparseL_https (r : List Char) :
    (urlparseL ("https:".data ++ r)).scheme = "https" := by
  have e : "https:".data = ['h', 't', 't', 'p', 's', ':'] := rfl
  rw [e]
  simp [urlparseL, List.takeWhile, schemeChar, lowerL]

lemma data_http_colon (r : List Char) :
    "http".data ++ (":".data ++ r) = "http:".data ++ r := rfl

lemma data_https_colon (r : List Char) :
    "https".data ++ (":".data ++ r) = "https:".data ++ r := rfl

/-- A recombined URL with a scheme starts with `scheme:`. -/
lemma unparse_data {p : URLParts} (h : p.scheme ≠ "") :
    ∃ r, (unparseURL p).data = p.scheme.data ++ (":".data ++ r) := by
  simp only [unparseURL]
  rw [if_pos h]
  split_ifs <;>
    exact ⟨_, by simp only [String.data_append, List.append_assoc]; try rfl⟩

/-- Recombination round-trips the scheme for `http`/`https`. -/
lemma unparse_scheme {p : URLParts} (h : p.scheme = "http" ∨ p.scheme = "https") :
    (urlparse (unparseURL p)).scheme = p.scheme := by
  have hne : p.scheme ≠ "" := by rcases h with h | h <;> simp [h]
  obtain ⟨r, hr⟩ := unparse_data hne
  unfold urlparse
  rcases h with h | h <;> rw [h] at hr ⊢ <;> rw [hr]
  · rw [data_http_colon]; exact urlparseL_http r
  · rw [data_https_colon]; exact urlparseL_https r

/-- `urljoinRel` always emits its given scheme. -/
lemma urljoinRel_scheme {uscheme : String} (netloc : String) (b u : URLParts)
    (h : uscheme = "http" ∨ uscheme = "https") :
    (urlparse (urljoinRel uscheme netloc b u)).scheme = uscheme := by
  unfold urljoinRel
  split_ifs <;> exact unparse_scheme h

/-- Any URL produced by `urljoin` against an `http`/`https` base is in
absolute form. -/
lemma urljoinE_abs {base u r : String}
    (hb : (urlparse base).scheme = "http" ∨ (urlparse base).scheme = "https")
    (h : urljoinE base u = some r) : isAbsoluteUrl r = true := by
  have hbase : base ≠ "" := by
    intro he
    rw [he] at hb
    rcases hb with hb | hb <;> exact absurd hb (by decide)
  unfold urljoinE at h
  rw [if_neg hbase] at h
  by_cases hu : u = ""
  · rw [if_pos hu] at h
    rw [Option.some_inj] at h
    subst h
    simp only [isAbsoluteUrl, bne_iff_ne, ne_eq]
    rcases hb with hb | hb <;> simp [hb]
  · rw [if_neg hu] at h
    split at h
    · rename_i b' u' hpb hpu
      have hbb : b' = urlparse base := urlparseX_eq hpb
      have huu : u' = urlparse u := urlparseX_eq hpu
      subst hbb huu
      by_cases hrel :
          (if (urlparse u).scheme = "" then (urlparse base).scheme else (urlparse u).scheme) ≠
              (urlparse base).scheme ∨
            ¬ usesRelative.contains
              (if (urlparse u).scheme = "" then (urlparse base).scheme else (urlparse u).scheme)
      · -- the `return url` branch: `u` necessarily has its own scheme
        rw [if_pos hrel] at h
        rw [Option.some_inj] at h
        subst h
        have husch : (urlparse u).scheme ≠ "" := by
          intro hz
          rw [if_pos hz] at hrel
          rcases hrel with hc | hc
          · exact hc rfl
          · rcases hb with hb | hb <;> rw [hb] at hc <;>
              exact hc (by simp [usesRelative])
        simpa [isAbsoluteUrl, bne_iff_ne] using husch
      · rw [if_neg hrel] at h
        push_neg at hrel
        set us := (if (urlparse u).scheme = "" then (urlparse base).scheme
          else (urlparse u).scheme) with hus
        have hsch : us = (urlparse base).scheme := hrel.1
        have hsb : us = "http" ∨ us = "https" := by rw [hsch]; exact hb
        have habs : ∀ s : String, (urlparse s).scheme = us →
            isAbsoluteUrl s = true := by
          intro s hs
          simp only [isAbsoluteUrl, bne_iff_ne, ne_eq, hs, hsch]
          rcases hb with hb | hb <;> simp [hb]
        split at h
        · split at h
          · rw [Option.some_inj] at h
            subst h
            exact habs _ (unparse_scheme hsb)
          · rw [Option.some_inj] at h
            subst h
            exact habs _ (urljoinRel_scheme _ _ _ hsb)
        · rw [Option.some_inj] at h
          subst h
          exact habs _ (urljoinRel_scheme _ _ _ hsb)
    · exact absurd h (by simp)

/-- The orchestrator's invocation trace: strategy A once, then strategy B
exactly when A's result was falsy. -/
lemma scrape_website_trace (fA fB : String → Option String) (url : String)
    (pd : Bool) (h : url ≠ "") :
    (scrape_website fA fB url pd).2 =
      if truthy (fA (normalizeUrl url)) then [FetchEvent.callA (normalizeUrl url)]
      else [FetchEvent.callA (normalizeUrl url), FetchEvent.callB (normalizeUrl url)] := by
  simp only [scrape_website]
  rw [if_neg h]
  by_cases ht : truthy (fA (normalizeUrl url)) = true
  · rw [if_pos ht, if_pos ht]
    rcases hfa : fA (normalizeUrl url) with _ | s
    · rfl
    · dsimp only
      split <;> first | rfl | (split <;> rfl)
  · rw [if_neg ht, if_neg ht]
    rcases hfb : fB (normalizeUrl url) with _ | s
    · dsimp only
    · dsimp only
      split <;> first | rfl | (split <;> rfl)

/-- When strategy A's result is falsy and strategy B returns non-empty
markup, the orchestrator's value is built from B's markup. -/
lemma scrape_website_result_B (fA fB : String → Option String) (url : String)
    (pd : Bool) (hB : String) (h : url ≠ "")
    (hta : truthy (fA (normalizeUrl url)) = false)
    (hfb : fB (normalizeUrl url) = some hB) (hne : hB ≠ "") :
    (scrape_website fA fB url pd).1 =
      if pd then
        ScrapeResult.bundle hB (parse_dom_content hB (normalizeUrl url)) (normalizeUrl url)
      else ScrapeResult.strRes hB := by
  simp only [scrape_website]
  rw [if_neg h, if_neg (by rw [hta]; exact Bool.false_ne_true), hfb]
  simp only
  rw [if_pos (by simpa using hne)]
  split <;> rfl

lemma startsWith_http_scheme {u : String} (h : startsWithS u "http://" = true) :
    (urlparse u).scheme = "http" := by
  simp only [startsWithS] at h
  rw [List.isPrefixOf_iff_prefix] at h
  obtain ⟨t, ht⟩ := h
  unfold urlparse
  rw [← ht, show "http://".data ++ t = "http:".data ++ ('/' :: '/' :: t) from rfl]
  exact urlparseL_http _

lemma startsWith_https_scheme {u : String} (h : startsWithS u "https://" = true) :
    (urlparse u).scheme = "https" := by
  simp only [startsWithS] at h
  rw [List.isPrefixOf_iff_prefix] at h
  obtain ⟨t, ht⟩ := h
  unfold urlparse
  rw [← ht, show "https://".data ++ t = "https:".data ++ ('/' :: '/' :: t) from rfl]
  exact urlparseL_https _

/-- A URL with no scheme gets the `https://` prefix. -/
lemma normalizeUrl_of_noscheme {u : String} (h : (urlparse u).scheme = "") :
    normalizeUrl u = "https://" ++ u := by
  unfold normalizeUrl
  rw [if_neg]
  intro hc
  rcases Bool.or_eq_true_iff.mp hc with hc | hc
  · rw [startsWith_http_scheme hc] at h
    exact absurd h (by decide)
  · rw [startsWith_https_scheme hc] at h
    exact absurd h (by decide)

/-- A default structured document (used to name concrete parses). -/
def dummyDom : DomData :=
  ⟨"", "", [], [], [], [], [], [], [], [], [], ⟨[], [], []⟩⟩

/-! ## Claims -/

/-- C1 (counterexample).  The claim says strategy B is invoked only after
strategy A returns a failure, and that when A fails and B succeeds the call
returns B's markup.  Both parts break on empty markup: with strategy A
returning `Success("")` (a success, not a failure) the orchestrator still
invokes B, and with A failing and B returning `Success("")` the call
returns the failure sentinel instead of B's markup. -/
theorem C1_counterexample_empty_markup :
    FetchEvent.callB "https://example.com" ∈
        (scrape_website (fun _ => some "") (fun _ => some "<p>ok</p>")
          "example.com" false).2 ∧
    (fun _ => (some "" : Option String)) "https://example.com" = some "" ∧
    (scrape_website (fun _ => none) (fun _ => some "") "example.com" false).1 =
      ScrapeResult.strRes allFailedMsg := by
  refine ⟨?_, rfl, ?_⟩ <;> decide

/-- C1 (amended).  For a non-empty URL, strategy A is always invoked first
and exactly once; strategy B is invoked, exactly once and after A, exactly
when A's result is unusable (`None` or empty markup); and when A's result
is unusable and B returns non-empty markup, the call's value is built from
B's markup rather than being a failure. -/
theorem C1_fallback_chain (fA fB : String → Option String) (url : String)
    (pd : Bool) (h : url ≠ "") :
    ((scrape_website fA fB url pd).2 =
      if truthy (fA (normalizeUrl url)) then [FetchEvent.callA (normalizeUrl url)]
      else [FetchEvent.callA (normalizeUrl url), FetchEvent.callB (normalizeUrl url)]) ∧
    (∀ hB : String, truthy (fA (normalizeUrl url)) = false →
      fB (normalizeUrl url) = some hB → hB ≠ "" →
      (scrape_website fA fB url pd).1 =
        if pd then
          ScrapeResult.bundle hB (parse_dom_content hB (normalizeUrl url)) (normalizeUrl url)
        else ScrapeResult.strRes hB) :=
  ⟨scrape_website_trace fA fB url pd h,
   fun hB hta hfb hne => scrape_website_result_B fA fB url pd hB h hta hfb hne⟩

/-- C1 (witness): strategy A fails, strategy B succeeds with markup; the
trace is exactly A-then-B and the result is B's markup. -/
theorem C1_fallback_chain_witness :
    ((scrape_website (fun _ => none) (fun _ => some "<p>hi</p>")
        "example.com" false).2 =
      if truthy ((fun _ => (none : Option String)) (normalizeUrl "example.com")) then
        [FetchEvent.callA (normalizeUrl "example.com")]
      else [FetchEvent.callA (normalizeUrl "example.com"),
            FetchEvent.callB (normalizeUrl "example.com")]) ∧
    (scrape_website (fun _ => none) (fun _ => some "<p>hi</p>")
        "example.com" false).1 = ScrapeResult.strRes "<p>hi</p>" := by
  have h := C1_fallback_chain (fun _ => none) (fun _ => some "<p>hi</p>")
    "example.com" false (by decide)
  exact ⟨h.1, h.2 "<p>hi</p>" rfl rfl (by decide)⟩

/-- C2 (counterexample).  The claim says malformed or partial markup always
yields a structured document with empty fields rather than aborting; but a
`title` element with no single text child makes the title extraction raise
(`soup.title.string` is `None`), so the caught exception makes
`parse_dom_content` return `None` for non-empty, non-sentinel markup. -/
theorem C2_counterexample_empty_title :
    parse_dom_content "<title></title>" "https://example.com" = none ∧
    "<title></title>" ≠ "" ∧
    startsWithS "<title></title>" "❌" = false := by
  refine ⟨?_, ?_, ?_⟩ <;> decide

/-- C2 (amended).  Structural extraction is a total function (never raises
past its boundary) and returns `None` exactly when the input is empty, is a
failure sentinel, or a caught internal exception occurs — the title
`.string` access, or URL resolution on a bracket-mismatched host during
link/image extraction.  In all other cases it returns a document (missing
elements yielding empty collections). -/
theorem C2_extraction_none_characterization (html base : String) :
    parse_dom_content html base = none ↔
      (html = "" ∨ startsWithS html "❌" = true ∨
       extractTitle (parseHTML html) = none ∨
       extractLinks base (parseHTML html) = none ∨
       extractImages base (parseHTML html) = none) := by
  simp only [parse_dom_content]
  split
  · rename_i hg
    refine iff_of_true rfl ?_
    rcases hg with hg | hg
    · exact Or.inl hg
    · exact Or.inr (Or.inl hg)
  · rename_i hg
    split
    · rename_i httl
      exact iff_of_true rfl (Or.inr (Or.inr (Or.inl httl)))
    · rename_i ttl httl
      split
      · rename_i links images hl hi
        refine iff_of_false (by simp) ?_
        rintro (hc | hc | hc | hc | hc)
        · exact hg (Or.inl hc)
        · exact hg (Or.inr hc)
        · rw [httl] at hc
          exact absurd hc (by simp)
        · rw [hl] at hc
          exact absurd hc (by simp)
        · rw [hi] at hc
          exact absurd hc (by simp)
      · rename_i hcatch
        refine iff_of_true rfl ?_
        rcases (extractLinks base (parseHTML html)).eq_none_or_eq_some with hL | ⟨ls, hL⟩
        · exact Or.inr (Or.inr (Or.inr (Or.inl hL)))
        · rcases (extractImages base (parseHTML html)).eq_none_or_eq_some with hI | ⟨is2, hI⟩
          · exact Or.inr (Or.inr (Or.inr (Or.inr hI)))
          · exact (hcatch ls is2 hL hI).elim

/-- C3 (counterexample).  The claim says every stored URL — including form
`action` URLs — is resolved to absolute form against the base URL; but the
extractor stores the `action` attribute verbatim: here the relative
`/submit` is stored although resolution would have produced the absolute
`https://example.com/submit`. -/
theorem C3_counterexample_form_action :
    (parse_dom_content "<form action=\"/submit\"></form>"
        "https://example.com/page").map
        (fun d => (d.forms.map FormInfo.action, d.links.map LinkInfo.url)) =
      some (["/submit"], []) ∧
    isAbsoluteUrl "/submit" = false ∧
    urljoinE "https://example.com/page" "/submit" =
      some "https://example.com/submit" := by
  refine ⟨?_, ?_, ?_⟩ <;> decide

/-- C3 (amended).  For a well-formed (`http`/`https`) base URL, every link
URL and every image source URL stored in the structured document is
resolved to absolute form against the base; form `action` attributes are
stored verbatim, unresolved. -/
theorem C3_links_images_absolute (html base : String) (d : DomData)
    (hb : (urlparse base).scheme = "http" ∨ (urlparse base).scheme = "https")
    (hp : parse_dom_content html base = some d) :
    (∀ l ∈ d.links, isAbsoluteUrl l.url = true) ∧
    (∀ im ∈ d.images, isAbsoluteUrl im.src = true) := by
  obtain ⟨ttl, links, images, _, hlinks, himgs, hd⟩ := parse_dom_content_some hp
  subst hd
  simp only [buildDom]
  constructor
  · intro l hl
    simp only [extractLinks] at hlinks
    obtain ⟨a, _, ha⟩ := mem_collectSkip hlinks l hl
    exact urljoinE_abs hb (mkLink_ok ha).1
  · intro im him
    simp only [extractImages] at himgs
    obtain ⟨a, _, ha⟩ := mem_collectSkip himgs im him
    obtain ⟨src, _, hsrc⟩ := mkImage_ok ha
    exact urljoinE_abs hb hsrc

/-- C3 (witness): a relative link and a relative image source are stored in
absolute form. -/
theorem C3_links_images_absolute_witness :
    (∀ l ∈ ((parse_dom_content "<a href=\"/x\">L</a><img src=\"pic.png\">"
        "https://example.com/base").getD dummyDom).links, isAbsoluteUrl l.url = true) ∧
    (∀ im ∈ ((parse_dom_content "<a href=\"/x\">L</a><img src=\"pic.png\">"
        "https://example.com/base").getD dummyDom).images, isAbsoluteUrl im.src = true) :=
  C3_links_images_absolute "<a href=\"/x\">L</a><img src=\"pic.png\">"
    "https://example.com/base"
    ((parse_dom_content "<a href=\"/x\">L</a><img src=\"pic.png\">"
        "https://example.com/base").getD dummyDom)
    (Or.inr (by decide)) (by decide)

/-- C4 (confirmed).  The stored `is_external` flag is true exactly when the
host (network location) of the resolved link URL differs from the host of
the base URL. -/
theorem C4_is_external_iff_host_differs (html base : String) (d : DomData)
    (hp : parse_dom_content html base = some d) :
    ∀ l ∈ d.links,
      (l.is_external = true ↔ (urlparse l.url).netloc ≠ (urlparse base).netloc) := by
  obtain ⟨ttl, links, images, _, hlinks, _, hd⟩ := parse_dom_content_some hp
  subst hd
  simp only [buildDom]
  intro l hl
  simp only [extractLinks] at hlinks
  obtain ⟨a, _, ha⟩ := mem_collectSkip hlinks l hl
  rw [(mkLink_ok ha).2]
  exact bne_iff_ne

/-- C4 (witness): the foreign-host link of a concrete page is flagged
external exactly because its network location differs from the base's. -/
theorem C4_is_external_iff_host_differs_witness :
    (LinkInfo.mk "Out" "http://other.com/" true).is_external = true ↔
      (urlparse (LinkInfo.mk "Out" "http://other.com/" true).url).netloc ≠
        (urlparse "https://example.com/base").netloc :=
  C4_is_external_iff_host_differs
    "<a href=\"/x\">In</a><a href=\"http://other.com/\">Out</a>"
    "https://example.com/base"
    ((parse_dom_content "<a href=\"/x\">In</a><a href=\"http://other.com/\">Out</a>"
        "https://example.com/base").getD dummyDom)
    (by decide) (LinkInfo.mk "Out" "http://other.com/" true) (by decide)

/-- C5 (confirmed).  When both fetch strategies fail, the orchestrator
returns the failure sentinel string — which begins with the fixed `❌`
marker — and no markup or structured document. -/
theorem C5_both_strategies_fail_sentinel (fA fB : String → Option String)
    (url : String) (pd : Bool) (h : url ≠ "")
    (ha : fA (normalizeUrl url) = none) (hb : fB (normalizeUrl url) = none) :
    (scrape_website fA fB url pd).1 = ScrapeResult.strRes allFailedMsg ∧
    startsWithS allFailedMsg "❌" = true := by
  constructor
  · simp only [scrape_website]
    rw [if_neg h]
    rw [if_neg (by rw [ha]; simp [truthy]), hb]
  · decide

/-- C5 (witness): both strategies fail; the sentinel comes back even when a
structured document was requested. -/
theorem C5_both_strategies_fail_sentinel_witness :
    (scrape_website (fun _ => none) (fun _ => none) "example.com" true).1 =
      ScrapeResult.strRes allFailedMsg ∧
    startsWithS allFailedMsg "❌" = true :=
  C5_both_strategies_fail_sentinel _ _ "example.com" true (by decide) rfl rfl

/-- C6 (confirmed).  A non-empty URL without a scheme is normalized by
prefixing `https://` before any strategy executes: every strategy
invocation in the trace — the first of which is strategy A — receives the
prefixed URL. -/
theorem C6_scheme_prefix_before_dispatch (fA fB : String → Option String)
    (url : String) (pd : Bool) (h1 : url ≠ "") (h2 : (urlparse url).scheme = "") :
    (scrape_website fA fB url pd).2.head? =
      some (FetchEvent.callA ("https://" ++ url)) ∧
    ∀ e ∈ (scrape_website fA fB url pd).2,
      e = FetchEvent.callA ("https://" ++ url) ∨
      e = FetchEvent.callB ("https://" ++ url) := by
  have ht := scrape_website_trace fA fB url pd h1
  rw [normalizeUrl_of_noscheme h2] at ht
  rw [ht]
  constructor
  · split <;> rfl
  · intro e he
    split at he
    · rcases List.mem_singleton.mp he with h
      exact Or.inl h
    · rcases List.mem_cons.mp he with h | h
      · exact Or.inl h
      · exact Or.inr (List.mem_singleton.mp h)

/-- C6 (witness): the input `example.com` is dispatched to the strategies
as `https://example.com`. -/
theorem C6_scheme_prefix_before_dispatch_witness :
    (scrape_website (fun _ => some "<p>x</p>") (fun _ => none)
        "example.com" false).2.head? =
      some (FetchEvent.callA ("https://" ++ "example.com")) ∧
    ∀ e ∈ (scrape_website (fun _ => some "<p>x</p>") (fun _ => none)
        "example.com" false).2,
      e = FetchEvent.callA ("https://" ++ "example.com") ∨
      e = FetchEvent.callB ("https://" ++ "example.com") :=
  C6_scheme_prefix_before_dispatch _ _ "example.com" false (by decide) (by decide)

/-- C7 (confirmed).  The extracted contact-info email and phone collections
contain no repeated values: both are built by `list(set(...))`, modelled by
`List.dedup`. -/
theorem C7_contact_info_dedup (html base : String) (d : DomData)
    (hp : parse_dom_content html base = some d) :
    d.contact_info.emails.Nodup ∧ d.contact_info.phones.Nodup := by
  obtain ⟨ttl, links, images, _, _, _, hd⟩ := parse_dom_content_some hp
  subst hd
  simp only [buildDom, extractContacts, pySetList]
  exact ⟨List.nodup_dedup _, List.nodup_dedup _⟩

/-- C7 (witness): a page whose text repeats the same email and the same
phone number still yields duplicate-free collections. -/
theorem C7_contact_info_dedup_witness :
    (((parse_dom_content
        "<p>Mail a@b.com and a@b.com or call 123-456-7890 and 123-456-7890</p>"
        "https://e.com").getD dummyDom).contact_info.emails).Nodup ∧
    (((parse_dom_content
        "<p>Mail a@b.com and a@b.com or call 123-456-7890 and 123-456-7890</p>"
        "https://e.com").getD dummyDom).contact_info.phones).Nodup :=
  C7_contact_info_dedup
    "<p>Mail a@b.com and a@b.com or call 123-456-7890 and 123-456-7890</p>"
    "https://e.com"
    ((parse_dom_content
        "<p>Mail a@b.com and a@b.com or call 123-456-7890 and 123-456-7890</p>"
        "https://e.com").getD dummyDom)
    (by decide)

/-- C8 (confirmed).  Chunking empty input text returns the empty sequence —
not null, not a single empty chunk — and being a total function it cannot
throw. -/
theorem C8_empty_input_chunks (chunk_size chunk_overlap : Nat) :
    create_content_chunks (ChunkInput.strIn "") chunk_size chunk_overlap = [] := rfl

/-- C9 (confirmed).  Every stored table is a non-empty sequence of
non-empty rows (rows yielding zero cells are skipped, tables yielding zero
rows are skipped), and the example markup
`<table><tr><td>A</td><td>B</td></tr></table>` yields exactly
`[["A","B"]]`. -/
theorem C9_tables_rows (html base : String) (d : DomData)
    (hp : parse_dom_content html base = some d) :
    (∀ t ∈ d.tables, t ≠ [] ∧ ∀ row ∈ t, row ≠ []) ∧
    (parse_dom_content "<table><tr><td>A</td><td>B</td></tr></table>"
        "https://example.com").map DomData.tables = some [[["A", "B"]]] := by
  constructor
  · obtain ⟨ttl, links, images, _, _, _, hd⟩ := parse_dom_content_some hp
    subst hd
    simp only [buildDom, extractTables]
    intro t ht
    obtain ⟨tb, _, htb⟩ := List.mem_filterMap.mp ht
    simp only [mkTable] at htb
    split at htb
    · exact absurd htb (by simp)
    · rename_i hne
      rw [Option.some_inj] at htb
      subst htb
      refine ⟨hne, ?_⟩
      intro row hrow
      obtain ⟨r0, _, hr0⟩ := List.mem_filterMap.mp hrow
      simp only [mkRow] at hr0
      split at hr0
      · exact absurd hr0 (by simp)
      · rename_i hne2
        rw [Option.some_inj] at hr0
        subst hr0
        exact hne2
  · decide

/-- C9 (witness): instantiated at the claim's own example table. -/
theorem C9_tables_rows_witness :
    (∀ t ∈ ((parse_dom_content "<table><tr><td>A</td><td>B</td></tr></table>"
        "https://example.com").getD dummyDom).tables,
      t ≠ [] ∧ ∀ row ∈ t, row ≠ []) ∧
    (parse_dom_content "<table><tr><td>A</td><td>B</td></tr></table>"
        "https://example.com").map DomData.tables = some [[["A", "B"]]] :=
  C9_tables_rows "<table><tr><td>A</td><td>B</td></tr></table>" "https://example.com"
    ((parse_dom_content "<table><tr><td>A</td><td>B</td></tr></table>"
        "https://example.com").getD dummyDom)
    (by decide)

/-- C10 (confirmed).  The contact-info record carries an `addresses` field
beside `emails` and `phones`; it is initialized empty and no extraction
step ever populates it, so it is the empty list in every successful
parse. -/
theorem C10_addresses_always_empty (html base : String) (d : DomData)
    (hp : parse_dom_content html base = some d) :
    d.contact_info.addresses = [] := by
  obtain ⟨ttl, links, images, _, _, _, hd⟩ := parse_dom_content_some hp
  subst hd
  rfl

/-- C10 (witness): a page full of contact data still has an empty
`addresses` list. -/
theorem C10_addresses_always_empty_witness :
    ((parse_dom_content "<p>a@b.com 123-456-7890 10 Main Street</p>"
        "https://e.com").getD dummyDom).contact_info.addresses = [] :=
  C10_addresses_always_empty "<p>a@b.com 123-456-7890 10 Main Street</p>"
    "https://e.com"
    ((parse_dom_content "<p>a@b.com 123-456-7890 10 Main Street</p>"
        "https://e.com").getD dummyDom)
    (by decide)

end WebScraper
